import Mathlib

/-!
A verification development for the DreamArea-51 stream-source resolvers
(providers XNXX, xHamster, XVideos).  The Python resolver methods are
shallowly embedded as total Lean functions over lists of characters and
strings.  External collaborators of the core (the HTTP fetcher, the
BeautifulSoup DOM, the json parser, urljoin, the shared quality ranker
select_best_source and the base-resolver template machinery) are taken as
explicit parameters, exactly as the spec declares them out of scope; the
regular-expression scans of the Python re module are embedded by a small
deterministic backtracking matcher restricted to the constructs the
resolver patterns actually use (case-insensitive literals, character
classes, optional and starred classes, greedy captures).
-/

namespace Area51

/-! ## Basic character and string helpers (models of the Python str operations) -/

/-- The single-quote character. -/
def sqc : Char := Char.ofNat 39

/-- The closing-brace character. -/
def rbc : Char := Char.ofNat 125

/-- The backslash character. -/
def bsc : Char := Char.ofNat 92

/-- Model of the Python substring test on character lists. -/
def containsL (hay needle : List Char) : Bool :=
  match hay with
  | [] => needle.isPrefixOf []
  | _ :: t => needle.isPrefixOf hay || containsL t needle

/-- Model of the Python substring test on strings (case sensitive). -/
def containsS (hay needle : String) : Bool :=
  containsL hay.data needle.data

/-- Lower-cased character data of a string (model of Python str.lower). -/
def lowerData (s : String) : List Char :=
  s.data.map Char.toLower

/-- Python needle-in-hay.lower() test; the needle is given already lower case. -/
def containsLower (hay needle : String) : Bool :=
  containsL (lowerData hay) needle.data

/-- Upper-cased character data of a string (model of Python str.upper). -/
def upperData (s : String) : List Char :=
  s.data.map Char.toUpper

/-- Python str.startswith. -/
def startsW (s pre : String) : Bool :=
  pre.data.isPrefixOf s.data

/-- Python str.lower().endswith, with the suffix given already lower case. -/
def endsLowerW (s suf : String) : Bool :=
  suf.data.isSuffixOf (lowerData s)

/-! ## The URL unescape transforms

XNXX resolver line 83: match.replace("\\/", "/").replace("\\", "").
xHamster resolver lines 161-163:
video_url.replace("\\/", "/").replace("\\\\", "").replace("\\", "").
(In the Python source the two-character sequence backslash-slash is written
"\\/" and the single backslash "\\".) -/

/-- Replace every (non-overlapping, left-to-right) backslash-slash pair by a
slash: Python replace of a backslash-slash with a slash. -/
def replSlashL : List Char → List Char
  | [] => []
  | [c] => [c]
  | a :: b :: r =>
    if a = bsc ∧ b = '/' then '/' :: replSlashL r
    else a :: replSlashL (b :: r)

/-- Remove every adjacent pair of backslashes: Python replace of a double
backslash with the empty string. -/
def replDoubleBsL : List Char → List Char
  | [] => []
  | [c] => [c]
  | a :: b :: r =>
    if a = bsc ∧ b = bsc then replDoubleBsL r
    else a :: replDoubleBsL (b :: r)

/-- Remove every backslash: Python replace of a backslash with the empty
string. -/
def stripBsL (l : List Char) : List Char :=
  l.filter (fun c => c ≠ bsc)

/-- The XNXX URL unescape transform (resolver.py line 83). -/
def unescapeUrl (s : String) : String :=
  String.mk (stripBsL (replSlashL s.data))

/-- The xHamster URL unescape transform (resolver.py lines 161-163). -/
def xhUnescapeUrl (s : String) : String :=
  String.mk (stripBsL (replDoubleBsL (replSlashL s.data)))

/-! ## A small regular-expression engine

The resolver patterns all consist of literals, single characters from a
class, an optional character from a class, greedy zero-or-more/one-or-more
runs over a class, and capture groups around such runs.  The matcher below
enumerates the ways a pattern prefix-matches a character list in Python
backtracking priority order (greedy quantifiers try the longest extent
first), so the head of the enumeration is exactly the match the re module
produces at that position. -/

/-- One non-capturing element of a pattern.  A literal carries a flag
telling whether it matches case-insensitively (re.IGNORECASE). -/
inductive Atom where
  | lit : String → Bool → Atom
  | one : (Char → Bool) → Atom
  | optc : (Char → Bool) → Atom
  | many : (Char → Bool) → Atom
  | many1 : (Char → Bool) → Atom

/-- A pattern item: a plain atom or a capture group over a run of atoms. -/
inductive Item where
  | a : Atom → Item
  | cap : List Atom → Item

/-- Case-insensitive character equality. -/
def eqCI (a b : Char) : Bool :=
  a.toLower = b.toLower

/-- Does the character list start with the given literal (optionally
case-insensitively)?  Returns the remainder on success. -/
def litMatch (lit : List Char) (ci : Bool) (l : List Char) : Option (List Char) :=
  match lit, l with
  | [], rest => some rest
  | _ :: _, [] => none
  | c :: cs, d :: ds =>
    if (if ci then eqCI c d else c = d) then litMatch cs ci ds else none

/-- All ways to split off a (possibly empty) run of characters satisfying p,
longest run first: greedy backtracking order. -/
def greedySplits (p : Char → Bool) : List Char → List (List Char)
  | [] => [[]]
  | c :: cs =>
    if p c then greedySplits p cs ++ [c :: cs]
    else [c :: cs]

/-- The possible remainders after matching a run of atoms against a prefix
of the character list, in backtracking priority order. -/
def matchAtoms : List Atom → List Char → List (List Char)
  | [], l => [l]
  | Atom.lit s ci :: as, l =>
    match litMatch s.data ci l with
    | some rest => matchAtoms as rest
    | none => []
  | Atom.one p :: as, l =>
    match l with
    | [] => []
    | c :: cs => if p c then matchAtoms as cs else []
  | Atom.optc p :: as, l =>
    match l with
    | [] => matchAtoms as []
    | c :: cs => if p c then matchAtoms as cs ++ matchAtoms as (c :: cs)
                 else matchAtoms as (c :: cs)
  | Atom.many p :: as, l =>
    (greedySplits p l).flatMap (fun rest => matchAtoms as rest)
  | Atom.many1 p :: as, l =>
    match l with
    | [] => []
    | c :: cs => if p c then (greedySplits p cs).flatMap (fun rest => matchAtoms as rest)
                 else []

/-- The possible (captures, remainder) results of matching a pattern against
a prefix of the character list, in backtracking priority order. -/
def matchItems : List Item → List Char → List (List String × List Char)
  | [], l => [([], l)]
  | Item.a x :: is, l =>
    (matchAtoms [x] l).flatMap (fun rest => matchItems is rest)
  | Item.cap xs :: is, l =>
    (matchAtoms xs l).flatMap (fun rest =>
      let consumed := l.take (l.length - rest.length)
      (matchItems is rest).map (fun pr => (String.mk consumed :: pr.1, pr.2)))

/-- The leftmost-greedy match of the pattern at the head of the list. -/
def matchHere (pat : List Item) (l : List Char) : Option (List String × List Char) :=
  (matchItems pat l).head?

/-- All non-overlapping leftmost matches, as re.findall produces them:
scan left to right, after a match resume at its end. -/
def findAllAux (pat : List Item) : List Char → Nat → List (List String)
  | _, 0 => []
  | l, fuel + 1 =>
    match matchHere pat l with
    | some (caps, rest) =>
      if rest.length < l.length then caps :: findAllAux pat rest fuel
      else caps :: findAllAux pat (l.drop 1) fuel
    | none =>
      match l with
      | [] => []
      | _ :: t => findAllAux pat t fuel

/-- Model of re.findall: the capture tuples of all non-overlapping matches. -/
def findAll (pat : List Item) (s : String) : List (List String) :=
  findAllAux pat s.data (s.data.length + 1)

/-- Model of re.search: the capture tuple of the leftmost match, if any. -/
def findFirstAux (pat : List Item) : List Char → Nat → Option (List String)
  | _, 0 => none
  | l, fuel + 1 =>
    match matchHere pat l with
    | some (caps, _) => some caps
    | none =>
      match l with
      | [] => none
      | _ :: t => findFirstAux pat t fuel

/-- Model of re.search returning the captures of the first match. -/
def findFirst (pat : List Item) (s : String) : Option (List String) :=
  findFirstAux pat s.data (s.data.length + 1)

/-! ## Character classes used by the resolver patterns -/

/-- A double or single quote. -/
def isQ (c : Char) : Bool := c = '"' || c = sqc

/-- Not a quote. -/
def notQ (c : Char) : Bool := !(isQ c)

/-- An ASCII whitespace character as matched by the pattern class for
whitespace. -/
def isWs (c : Char) : Bool :=
  c = ' ' || c = Char.ofNat 9 || c = Char.ofNat 10 || c = Char.ofNat 13 ||
  c = Char.ofNat 12 || c = Char.ofNat 11

/-- A colon or an equals sign. -/
def isColonEq (c : Char) : Bool := c = ':' || c = '='

/-- Not whitespace, quote, less-than or greater-than (the URL character
class of the direct-scan patterns). -/
def notDelim (c : Char) : Bool :=
  !(isWs c || c = '"' || c = '<' || c = '>')

/-! ## URL metadata extraction

Modelled from the spec: the function extract_metadata_from_url of the
module quality_utils is imported by every resolver but the module is not
part of the provided sources.  Spec 4.1: format inferred from the
extension/path token (".m3u8" gives m3u8, ".mp4" or a path containing
"mp4" gives mp4, otherwise unknown); quality inferred by scanning the URL
for the first resolution token of one to four digits followed by the
letter p, the empty string when absent; no exceptions raised. -/

/-- Quality and container format of a candidate URL. -/
structure Metadata where
  quality : String
  format : String
  deriving DecidableEq, Repr

/-- Greedy match of one-to-four digits followed by the letter p at the head
of the list, longest digit run first. -/
def qualityTokenHere (l : List Char) : Option String :=
  let tryK (k : Nat) : Option String :=
    let pre := l.take k
    if pre.length = k ∧ pre.all Char.isDigit ∧ (l.drop k).head? = some 'p' then
      some (String.mk (pre ++ ['p']))
    else none
  ((tryK 4).orElse fun _ => (tryK 3).orElse fun _ => (tryK 2).orElse fun _ => tryK 1)

/-- The first resolution token in the URL, or the empty string. -/
def firstQualityToken : List Char → String
  | [] => ""
  | c :: r =>
    match qualityTokenHere (c :: r) with
    | some t => t
    | none => firstQualityToken r

/-- Modelled from the spec: quality_utils.extract_metadata_from_url
(spec 4.1), absent from the provided sources. -/
def extract_metadata_from_url (url : String) : Metadata :=
  { quality := firstQualityToken url.data
    format :=
      if containsS url ".m3u8" then "m3u8"
      else if containsS url "mp4" then "mp4"
      else "unknown" }

/-- One extracted candidate source: the url record together with the
metadata fields spread into it, as the Python dict with url, quality and
format keys. -/
structure Source where
  url : String
  quality : String
  format : String
  deriving DecidableEq, Repr

/-- The final result of a resolve call; only the resolved_url field is part
of the core data model, the session, header and recorder fields belong to
the external collaborators. -/
structure ResolveResult where
  resolved_url : String
  deriving DecidableEq, Repr

end Area51

namespace Area51.XNXX

/-! ## The XNXX resolver (providers/XNXX/resolver.py)

resolve_url wraps its whole body in a try/except returning None, so the
embedding is a total function into Option.  The external collaborators are
parameters: the fetched page text (fetch_with_fallback), the contentUrl
strings of the successfully parsed JSON-LD scripts (BeautifulSoup plus
json), the video/source DOM elements (BeautifulSoup), urljoin, and the
shared ranker select_best_source of the missing quality_utils module
(closed over the requested quality and codec flags). -/

/-- A quote-delimited capture: the group matching one or more non-quote
characters. -/
def capQ : Item := Item.cap [Atom.many1 notQ]

/-- A setter pattern: the literal name, an opening quote, the captured URL,
a closing quote (re.IGNORECASE). -/
def setterPat (name : String) : List Item :=
  [Item.a (Atom.lit name true), Item.a (Atom.one isQ), capQ, Item.a (Atom.one isQ)]

/-- A key pattern such as the video_url one: the literal key, an optional
quote, whitespace, a colon or equals, whitespace, a quote, the captured
URL, a quote. -/
def keyPat (key : String) : List Item :=
  [Item.a (Atom.lit key true), Item.a (Atom.optc isQ),
   Item.a (Atom.many isWs), Item.a (Atom.one isColonEq), Item.a (Atom.many isWs),
   Item.a (Atom.one isQ), capQ, Item.a (Atom.one isQ)]

/-- A quoted-key pattern whose capture must contain the given extension:
a quote, the literal key, an optional quote, whitespace, a separator from
the given class, whitespace, a quote, the capture (non-quote run, the
extension literal, a non-quote run), a quote. -/
def quotedKeyExtPat (key : String) (sep : Char → Bool) (ext : String) : List Item :=
  [Item.a (Atom.one isQ), Item.a (Atom.lit key true), Item.a (Atom.optc isQ),
   Item.a (Atom.many isWs), Item.a (Atom.one sep), Item.a (Atom.many isWs),
   Item.a (Atom.one isQ),
   Item.cap [Atom.many1 notQ, Atom.lit ext true, Atom.many notQ],
   Item.a (Atom.one isQ)]

/-- The js_patterns table of resolve_url (lines 58-76): each pattern with
its default quality. -/
def js_patterns : List (List Item × String) :=
  [ (setterPat "html5player.setVideoUrlLow(", "360p"),
    (setterPat "html5player.setVideoUrlHigh(", "720p"),
    (setterPat "html5player.setVideoHLS(", "adaptive"),
    (setterPat "html5player.setVideoUrl1080p(", "1080p"),
    (setterPat "html5player.setVideoUrl720p(", "720p"),
    (setterPat "html5player.setVideoUrl480p(", "480p"),
    (setterPat "html5player.setVideoUrl360p(", "360p"),
    (setterPat "html5player.setVideoUrl240p(", "240p"),
    (setterPat "setVideoUrl(", "Unknown"),
    (keyPat "video_url", "Unknown"),
    (quotedKeyExtPat "url" (fun c => c = ':') ".mp4", "Unknown"),
    (quotedKeyExtPat "file" (fun c => c = ':') ".mp4", "Unknown"),
    (quotedKeyExtPat "hls" isColonEq ".m3u8", "adaptive"),
    (quotedKeyExtPat "url" isColonEq ".m3u8", "adaptive") ]

/-- The cleaned URL of a method-1 match: unescape, then upgrade a
protocol-relative URL (lines 83-85). -/
def cleanUrl (m : String) : String :=
  let c := unescapeUrl m
  if startsW c "//" then String.mk ("https:".data ++ c.data) else c

/-- The body of the method-1 match loop (lines 80-101): the match must be
non-empty and contain "http" or start with "//"; the candidate records the
cleaned URL and the metadata, defaulting the quality to the pattern's
default when extraction yields none and the default is not "Unknown", and
otherwise to adaptive for m3u8 or 480p. -/
def processJsMatch (m dq : String) : Option Source :=
  if m ≠ "" ∧ (containsS m "http" || startsW m "//") then
    let clean := cleanUrl m
    let md := extract_metadata_from_url clean
    let q :=
      if md.quality = "" ∧ dq ≠ "Unknown" then dq
      else if md.quality = "" then
        (if md.format = "m3u8" then "adaptive" else "480p")
      else md.quality
    some { url := clean, quality := q, format := md.format }
  else none

/-- Method 1 (lines 78-101): run every js pattern over the page text and
process each match. -/
def method1 (html : String) : List Source :=
  js_patterns.flatMap (fun pd =>
    (findAll pd.1 html).filterMap (fun caps =>
      caps.head?.bind (fun m => processJsMatch m pd.2)))

/-- Method 2 (lines 103-114): each successfully parsed JSON-LD contentUrl
becomes a candidate with quality defaulted to 480p; the parse itself is
external (BeautifulSoup and json). -/
def method2 (jsonLdUrls : List String) : List Source :=
  jsonLdUrls.map (fun u =>
    let md := extract_metadata_from_url u
    { url := u
      quality := if md.quality = "" then "480p" else md.quality
      format := md.format })

/-- A DOM video/source element: the src, label and data-res attributes
(missing attributes are the empty string, a missing src is none). -/
structure VElem where
  src : Option String
  label : String
  dataRes : String

/-- Method 3 (lines 116-151): DOM source elements; relative srcs are
upgraded or joined against the page URL, the attribute quality (label,
falling back to data-res, HLS labels normalised to adaptive) wins over the
URL-inferred quality, with the final adaptive/480p fallback. -/
def method3 (pageUrl : String) (joinUrl : String → String → String)
    (elems : List VElem) : List Source :=
  elems.filterMap (fun e =>
    e.src.bind (fun s0 =>
      if s0 = "" then none
      else
        let s1 :=
          if !(startsW s0 "http") then
            (if startsW s0 "//" then String.mk ("https:".data ++ s0.data)
             else joinUrl pageUrl s0)
          else s0
        let md := extract_metadata_from_url s1
        let sq0 := if e.label ≠ "" then e.label else e.dataRes
        let sq := if sq0 ≠ "" ∧ containsL (upperData sq0) "HLS".data then "adaptive" else sq0
        let q :=
          if sq ≠ "" then sq
          else if md.quality = "" then
            (if md.format = "m3u8" then "adaptive" else "480p")
          else md.quality
        some { url := s1, quality := q, format := md.format }))

/-- The per-URL keep condition of the dedup/filter loop (lines 158-165):
the URL starts with http and its lower-casing contains one of the media
indicators. -/
def keepUrl (u : String) : Bool :=
  startsW u "http" &&
    (containsLower u ".mp4" || containsLower u ".m3u8" ||
     containsLower u "video" || containsLower u "stream")

/-- The dedup/filter loop (lines 153-167) with its seen-URL set. -/
def filterAux (seen : List String) : List Source → List Source
  | [] => []
  | s :: r =>
    if !(seen.contains s.url) && keepUrl s.url then
      s :: filterAux (s.url :: seen) r
    else filterAux seen r

/-- The dedup/filter of resolve_url producing unique_sources. -/
def filterSources (l : List Source) : List Source :=
  filterAux [] l

/-- resolve_url (lines 36-218): fetch failure (None or the empty page) and
an empty filtered list return none; otherwise the resolved_url is the best
source's url, or the page URL itself when the ranker returns none. -/
def resolve_url (pageUrl : String) (html : Option String)
    (jsonLdUrls : List String) (joinUrl : String → String → String)
    (elems : List VElem) (selectBest : List Source → Option Source) :
    Option ResolveResult :=
  match html with
  | none => none
  | some h =>
    if h = "" then none
    else
      let sources := method1 h ++ method2 jsonLdUrls ++ method3 pageUrl joinUrl elems
      let unique := filterSources sources
      if unique = [] then none
      else
        some { resolved_url :=
                 match selectBest unique with
                 | some b => b.url
                 | none => pageUrl }

end Area51.XNXX

namespace Area51.XHamster

/-! ## The xHamster resolver (providers/xHamster/resolver.py)

_parse_html_for_sources is pure regex-and-string work over the page text
except for method 2, whose player-init JSON blob is located by regex and
then parsed by the external json module; the parsed source list of method
2 is therefore a parameter.  The base-resolver template helpers
(_is_template_url, _resolve_template_url) and select_best_source live in
modules absent from the provided sources and are parameters of
resolve_url. -/

/-- The master-playlist marker tokens checked against the lower-cased URL
(lines 193 and 247). -/
def masterMarkers : List String :=
  ["/multi=", "/_tpl_", "/master.m3u8", "master="]

/-- Does the lower-cased URL contain a master-playlist marker? -/
def hasMarker (u : String) : Bool :=
  masterMarkers.any (fun m => containsLower u m)

/-- The preview/trailer marker tokens (lines 178, 282, 317). -/
def previewMarkers : List String :=
  ["preview", "trailer", "sample", "promo"]

/-- Does the lower-cased URL contain a preview/trailer marker? -/
def previewMarked (u : String) : Bool :=
  previewMarkers.any (fun m => containsLower u m)

/-- The method-1 pattern (line 156): a quoted url key and value, any run
of non-brace characters, a quoted label key and value, both values
captured (re.IGNORECASE). -/
def json_pattern : List Item :=
  [Item.a (Atom.lit "\"url\":\"" true),
   Item.cap [Atom.many1 (fun c => c ≠ '"')],
   Item.a (Atom.lit "\"" true),
   Item.a (Atom.many (fun c => c ≠ rbc)),
   Item.a (Atom.lit "\"label\":\"" true),
   Item.cap [Atom.many1 (fun c => c ≠ '"')],
   Item.a (Atom.lit "\"" true)]

/-- The body of the method-1 loop (lines 159-205): unescape the URL, skip
it unless it carries a media indicator, skip thumbnails and
preview/trailer URLs, then fill the quality: a master-marked m3u8 is
adaptive, otherwise a non-adaptive label wins, otherwise the URL-inferred
quality stands. -/
def process1 (video_url quality_label : String) : Option Source :=
  let clean := xhUnescapeUrl video_url
  if clean = "" ∨ !(containsLower clean "mp4" || containsLower clean "m3u8" ||
      containsLower clean "video") then none
  else if containsLower clean "thumb" then none
  else if previewMarked clean then none
  else
    let md := extract_metadata_from_url clean
    let q :=
      if md.format = "m3u8" then
        (if hasMarker clean then "adaptive"
         else if quality_label ≠ "" ∧ quality_label ≠ "adaptive" then quality_label
         else md.quality)
      else if quality_label ≠ "" ∧ quality_label ≠ "adaptive" then quality_label
      else md.quality
    some { url := clean, quality := q, format := md.format }

/-- Method 1 (lines 155-205): every url/label match of the json pattern,
processed. -/
def method1 (html : String) : List Source :=
  (findAll json_pattern html).filterMap (fun caps =>
    match caps with
    | [u, lab] => process1 u lab
    | _ => none)

/-- A parsed player-init source entry of method 2: the url string and the
quality-or-label value (the Python source.get("quality") or
source.get("label"), the empty string when both are missing or falsy). -/
structure PlayerSrc where
  url : String
  qualityOrLabel : String

/-- The body of the method-2 loop (lines 238-257): only the JSON slash
escape is undone; a master-marked m3u8 is adaptive, otherwise the JSON
quality wins, otherwise the URL-inferred quality stands. -/
def process2 (p : PlayerSrc) : Source :=
  let u := String.mk (replSlashL p.url.data)
  let md := extract_metadata_from_url u
  let q :=
    if md.format = "m3u8" then
      (if hasMarker u then "adaptive"
       else if p.qualityOrLabel ≠ "" then p.qualityOrLabel
       else md.quality)
    else if p.qualityOrLabel ≠ "" then p.qualityOrLabel
    else md.quality
  { url := u, quality := q, format := md.format }

/-- Method 2 (lines 209-263) over the externally parsed source list. -/
def method2 (ps : List PlayerSrc) : List Source :=
  ps.map process2

/-- The method-3 pattern (lines 266-268): an absolute URL on a video CDN
host containing .mp4, captured whole (re.IGNORECASE). -/
def mp4_pattern : List Item :=
  [Item.cap [Atom.lit "http" true, Atom.optc (fun c => eqCI c 's'),
             Atom.lit "://video" true, Atom.many notDelim,
             Atom.lit ".mp4" true, Atom.many notDelim]]

/-- The body of the method-3 loop (lines 271-293): skip URLs already
collected, URLs ending in .m3u8, thumbnails and preview/trailer URLs;
quality falls back to 480p. -/
def add3 (acc : List Source) (u : String) : List Source :=
  if u ≠ "" ∧ !((acc.map Source.url).contains u) then
    if endsLowerW u ".m3u8" then acc
    else if containsLower u "thumb" then acc
    else if previewMarked u then acc
    else
      let md := extract_metadata_from_url u
      acc ++ [{ url := u
                quality := if md.quality = "" then "480p" else md.quality
                format := md.format }]
  else acc

/-- Method 3 (lines 265-295), appending to the sources collected so far. -/
def method3 (html : String) (acc : List Source) : List Source :=
  (findAll mp4_pattern html).foldl (fun a caps =>
    match caps.head? with
    | some u => add3 a u
    | none => a) acc

/-- The method-4 pattern (line 303): an absolute URL containing .m3u8,
captured whole (re.IGNORECASE). -/
def hls_pattern : List Item :=
  [Item.cap [Atom.lit "http" true, Atom.optc (fun c => eqCI c 's'),
             Atom.lit "://" true, Atom.many notDelim,
             Atom.lit ".m3u8" true, Atom.many notDelim]]

/-- The body of the method-4 loop (lines 310-330): skip URLs already
collected, thumbnails and preview/trailer URLs; quality falls back to
adaptive. -/
def add4 (acc : List Source) (u : String) : List Source :=
  if u ≠ "" ∧ !((acc.map Source.url).contains u) then
    if containsLower u "thumb" then acc
    else if previewMarked u then acc
    else
      let md := extract_metadata_from_url u
      acc ++ [{ url := u
                quality := if md.quality = "" then "adaptive" else md.quality
                format := md.format }]
  else acc

/-- Method 4 (lines 297-332), appending to the sources collected so far. -/
def method4 (html : String) (acc : List Source) : List Source :=
  (findAll hls_pattern html).foldl (fun a caps =>
    match caps.head? with
    | some u => add4 a u
    | none => a) acc

/-- The final dedup loop (lines 336-341): first occurrence of each URL
wins, order preserved. -/
def dedupAux (seen : List String) : List Source → List Source
  | [] => []
  | s :: r =>
    if !(seen.contains s.url) then s :: dedupAux (s.url :: seen) r
    else dedupAux seen r

/-- Deduplicate the collected sources by URL. -/
def dedup (l : List Source) : List Source :=
  dedupAux [] l

/-- _parse_html_for_sources (lines 147-346): the empty page text returns
the empty list; otherwise the four methods run in order, and the function
returns the deduplicated list when any source was found and Python None
(here none) when none was. -/
def parse_html_for_sources (html : String) (ps : List PlayerSrc) :
    Option (List Source) :=
  if html = "" then some []
  else
    let s2 := method1 html ++ method2 ps
    let s3 := method3 html s2
    let s4 := method4 html s3
    if s4 = [] then none else some (dedup s4)

/-- resolve_url (lines 38-107): a falsy page text or a falsy source list
returns none; otherwise the best source's url (or the page URL when the
ranker returns none), run through the base-resolver template step, is the
resolved_url. -/
def resolve_url (pageUrl : String) (html : Option String)
    (ps : List PlayerSrc) (isTemplate : String → Bool)
    (resolveTemplate : String → Option String)
    (selectBest : List Source → Option Source) : Option ResolveResult :=
  match html with
  | none => none
  | some h =>
    if h = "" then none
    else
      match parse_html_for_sources h ps with
      | none => none
      | some l =>
        if l = [] then none
        else
          let ru0 :=
            match selectBest l with
            | some b => b.url
            | none => pageUrl
          let ru :=
            if isTemplate ru0 then
              (match resolveTemplate ru0 with
               | some t => if t ≠ ru0 then t else ru0
               | none => ru0)
            else ru0
          some { resolved_url := ru }

end Area51.XHamster

namespace Area51.XVideos

/-! ## The XVideos resolver (providers/XVideos/resolver.py)

The three player-setter patterns and the JSON-LD script pattern are case
sensitive and use single quotes; re.search yields only the first match.
The json parse of the JSON-LD text is external and is a parameter mapping
the captured script text to the contentUrl when the parse succeeds and
the key is present. -/

/-- A case-sensitive setter pattern with single quotes and the closing
parenthesis: the literal name, a single quote, the captured URL, a single
quote, a closing parenthesis. -/
def setterPatCS (name : String) : List Item :=
  [Item.a (Atom.lit name false), Item.a (Atom.one (fun c => c = sqc)),
   Item.cap [Atom.many1 (fun c => c ≠ sqc)],
   Item.a (Atom.one (fun c => c = sqc)), Item.a (Atom.one (fun c => c = ')'))]

/-- The HLS master pattern (line 92). -/
def hlsPat : List Item := setterPatCS "html5player.setVideoHLS("

/-- The low-quality MP4 pattern (line 106). -/
def lowPat : List Item := setterPatCS "html5player.setVideoUrlLow("

/-- The high-quality MP4 pattern (line 107). -/
def highPat : List Item := setterPatCS "html5player.setVideoUrlHigh("

/-- The JSON-LD script pattern (line 128): the opening script tag, the
captured non-tag text, the closing tag. -/
def jsonLdPat : List Item :=
  [Item.a (Atom.lit "<script type=\"application/ld+json\">" false),
   Item.cap [Atom.many1 (fun c => c ≠ '<')],
   Item.a (Atom.lit "</script>" false)]

/-- A candidate built from a matched URL with the given default quality
used when the URL yields none. -/
def mkSource (u dq : String) : Source :=
  let md := extract_metadata_from_url u
  { url := u
    quality := if md.quality = "" then dq else md.quality
    format := md.format }

/-- _extract_sources (lines 85-149): the HLS match (default adaptive), the
low match (default 360p), the high match (default 720p), then the JSON-LD
contentUrl (default 720p) unless its URL was already collected.  No
deduplication is applied to the setter matches. -/
def extract_sources (html : String) (parseLd : String → Option String) :
    List Source :=
  let s1 :=
    match findFirst hlsPat html with
    | some (u :: _) => if u ≠ "" then [mkSource u "adaptive"] else []
    | _ => []
  let s2 :=
    s1 ++
      (match findFirst lowPat html with
       | some (u :: _) => if u ≠ "" then [mkSource u "360p"] else []
       | _ => [])
  let s3 :=
    s2 ++
      (match findFirst highPat html with
       | some (u :: _) => if u ≠ "" then [mkSource u "720p"] else []
       | _ => [])
  match findFirst jsonLdPat html with
  | some (txt :: _) =>
    (match parseLd txt with
     | some cu =>
       if !(s3.any (fun s => s.url = cu)) then s3 ++ [mkSource cu "720p"]
       else s3
     | none => s3)
  | _ => s3

/-- resolve_url (lines 34-83): fetch failure (None or the empty page) and
an empty extracted list return none; otherwise the resolved_url is the
best source's url, or the page URL itself when the ranker returns none. -/
def resolve_url (pageUrl : String) (html : Option String)
    (parseLd : String → Option String)
    (selectBest : List Source → Option Source) : Option ResolveResult :=
  match html with
  | none => none
  | some h =>
    if h = "" then none
    else
      let sources := extract_sources h parseLd
      if sources = [] then none
      else
        some { resolved_url :=
                 match selectBest sources with
                 | some b => b.url
                 | none => pageUrl }

end Area51.XVideos

namespace Area51

/-! ## Properties of the unescape transforms -/

/-- Every character surviving the backslash strip differs from the
backslash. -/
theorem stripBsL_no_bs (l : List Char) : ∀ c ∈ stripBsL l, c ≠ bsc := by
  intro c hc
  have := List.of_mem_filter hc
  simpa using this

/-- The pair replacement is the identity on backslash-free lists. -/
theorem replSlashL_id_of_no_bs : ∀ l : List Char, (∀ c ∈ l, c ≠ bsc) → replSlashL l = l
  | [], _ => rfl
  | [c], _ => rfl
  | a :: b :: r, h => by
    have ha : a ≠ bsc := h a (by simp)
    rw [replSlashL, if_neg (by simp [ha]), replSlashL_id_of_no_bs (b :: r)]
    intro c hc
    exact h c (List.mem_cons_of_mem a hc)

/-- The double-backslash replacement is the identity on backslash-free
lists. -/
theorem replDoubleBsL_id_of_no_bs : ∀ l : List Char, (∀ c ∈ l, c ≠ bsc) → replDoubleBsL l = l
  | [], _ => rfl
  | [c], _ => rfl
  | a :: b :: r, h => by
    have ha : a ≠ bsc := h a (by simp)
    rw [replDoubleBsL, if_neg (by simp [ha]), replDoubleBsL_id_of_no_bs (b :: r)]
    intro c hc
    exact h c (List.mem_cons_of_mem a hc)

/-- The backslash strip is the identity on backslash-free lists. -/
theorem stripBsL_id_of_no_bs (l : List Char) (h : ∀ c ∈ l, c ≠ bsc) :
    stripBsL l = l := by
  unfold stripBsL
  refine List.filter_eq_self.2 ?_
  intro c hc
  simpa using h c hc

/-- The XNXX unescape transform reaches a backslash-free fixed point after
one application. -/
theorem unescapeUrl_fixed (s : String) :
    unescapeUrl (unescapeUrl s) = unescapeUrl s := by
  unfold unescapeUrl
  have hno : ∀ c ∈ stripBsL (replSlashL s.data), c ≠ bsc :=
    stripBsL_no_bs (replSlashL s.data)
  rw [show (String.mk (stripBsL (replSlashL s.data))).data
        = stripBsL (replSlashL s.data) from rfl]
  rw [replSlashL_id_of_no_bs _ hno, stripBsL_id_of_no_bs _ hno]

/-- The xHamster unescape transform reaches a backslash-free fixed point
after one application. -/
theorem xhUnescapeUrl_fixed (s : String) :
    xhUnescapeUrl (xhUnescapeUrl s) = xhUnescapeUrl s := by
  unfold xhUnescapeUrl
  have hno : ∀ c ∈ stripBsL (replDoubleBsL (replSlashL s.data)), c ≠ bsc :=
    stripBsL_no_bs _
  rw [show (String.mk (stripBsL (replDoubleBsL (replSlashL s.data)))).data
        = stripBsL (replDoubleBsL (replSlashL s.data)) from rfl]
  rw [replSlashL_id_of_no_bs _ hno, replDoubleBsL_id_of_no_bs _ hno,
      stripBsL_id_of_no_bs _ hno]

/-! ## Properties of the XNXX dedup/filter -/

/-- A source surviving the filter loop was not in the seen set the loop
started from. -/
theorem XNXX.filterAux_not_seen :
    ∀ (l : List Source) (seen : List String) (s : Source),
      s ∈ XNXX.filterAux seen l → seen.contains s.url = false
  | [], _, _, h => by simp [XNXX.filterAux] at h
  | t :: r, seen, s, h => by
    rw [XNXX.filterAux] at h
    by_cases hc : (!(seen.contains t.url) && XNXX.keepUrl t.url) = true
    · rw [if_pos hc] at h
      rcases List.mem_cons.1 h with h1 | h1
      · subst h1
        have hc2 := hc
        simp only [Bool.and_eq_true, Bool.not_eq_true'] at hc2
        exact hc2.1
      · have := XNXX.filterAux_not_seen r (t.url :: seen) s h1
        simp only [List.contains_cons, Bool.or_eq_false_iff] at this
        exact this.2
    · rw [if_neg hc] at h
      exact XNXX.filterAux_not_seen r seen s h

/-- The filter loop never outputs two sources with the same URL. -/
theorem XNXX.filterAux_pairwise :
    ∀ (l : List Source) (seen : List String),
      (XNXX.filterAux seen l).Pairwise (fun a b => a.url ≠ b.url)
  | [], _ => by simp [XNXX.filterAux]
  | t :: r, seen => by
    rw [XNXX.filterAux]
    by_cases hc : (!(seen.contains t.url) && XNXX.keepUrl t.url) = true
    · rw [if_pos hc]
      refine List.Pairwise.cons ?_ (XNXX.filterAux_pairwise r (t.url :: seen))
      intro b hb hbe
      have hns := XNXX.filterAux_not_seen r (t.url :: seen) b hb
      simp only [List.contains_cons, Bool.or_eq_false_iff] at hns
      rw [hbe] at hns
      simp at hns
    · rw [if_neg hc]
      exact XNXX.filterAux_pairwise r seen

/-- filterSources outputs pairwise distinct URLs. -/
theorem XNXX.filterSources_pairwise (l : List Source) :
    (XNXX.filterSources l).Pairwise (fun a b => a.url ≠ b.url) :=
  XNXX.filterAux_pairwise l []

/-! ## Properties of the xHamster dedup -/

/-- A source surviving the dedup loop was not in the seen set the loop
started from. -/
theorem XHamster.dedupAux_not_seen :
    ∀ (l : List Source) (seen : List String) (s : Source),
      s ∈ XHamster.dedupAux seen l → seen.contains s.url = false
  | [], _, _, h => by simp [XHamster.dedupAux] at h
  | t :: r, seen, s, h => by
    rw [XHamster.dedupAux] at h
    by_cases hc : (!(seen.contains t.url)) = true
    · rw [if_pos hc] at h
      rcases List.mem_cons.1 h with h1 | h1
      · subst h1
        simpa using hc
      · have := XHamster.dedupAux_not_seen r (t.url :: seen) s h1
        simp only [List.contains_cons, Bool.or_eq_false_iff] at this
        exact this.2
    · rw [if_neg hc] at h
      exact XHamster.dedupAux_not_seen r seen s h

/-- The dedup loop never outputs two sources with the same URL. -/
theorem XHamster.dedupAux_pairwise :
    ∀ (l : List Source) (seen : List String),
      (XHamster.dedupAux seen l).Pairwise (fun a b => a.url ≠ b.url)
  | [], _ => by simp [XHamster.dedupAux]
  | t :: r, seen => by
    rw [XHamster.dedupAux]
    by_cases hc : (!(seen.contains t.url)) = true
    · rw [if_pos hc]
      refine List.Pairwise.cons ?_ (XHamster.dedupAux_pairwise r (t.url :: seen))
      intro b hb hbe
      have hns := XHamster.dedupAux_not_seen r (t.url :: seen) b hb
      simp only [List.contains_cons, Bool.or_eq_false_iff] at hns
      rw [hbe] at hns
      simp at hns
    · rw [if_neg hc]
      exact XHamster.dedupAux_pairwise r seen

/-- dedup outputs pairwise distinct URLs. -/
theorem XHamster.dedup_pairwise (l : List Source) :
    (XHamster.dedup l).Pairwise (fun a b => a.url ≠ b.url) :=
  XHamster.dedupAux_pairwise l []

/-- dedup of a non-empty list is non-empty. -/
theorem XHamster.dedup_ne_nil (l : List Source) (h : l ≠ []) :
    XHamster.dedup l ≠ [] := by
  match l with
  | [] => exact absurd rfl h
  | t :: r =>
    unfold XHamster.dedup XHamster.dedupAux
    simp

/-! ## The spec-side characterization of the XNXX dedup/filter

These two definitions follow the words of the spec (section 4.3 and the
claim): keep the candidates whose URL starts with an absolute scheme (the
code's reading: the http prefix) and carries a media indicator, then keep
the first occurrence of each URL, order preserved. -/

/-- The claim-side keep predicate: an absolute http scheme and at least
one media indicator in the URL. -/
def specKeep (u : String) : Bool :=
  startsW u "http" &&
    (containsLower u ".mp4" || containsLower u ".m3u8" ||
     containsLower u "video" || containsLower u "stream")

/-- The claim-side first-occurrence deduplication, seen-set form. -/
def specDedupAux (seen : List String) : List Source → List Source
  | [] => []
  | s :: r =>
    if seen.contains s.url then specDedupAux seen r
    else s :: specDedupAux (s.url :: seen) r

/-- The claim-side filter: keep, then deduplicate first-occurrence-wins. -/
def specFilter (l : List Source) : List Source :=
  specDedupAux [] (l.filter (fun s => specKeep s.url))

/-- The XNXX dedup/filter loop coincides with keep-then-dedup for every
seen set. -/
theorem XNXX.filterAux_eq_spec :
    ∀ (l : List Source) (seen : List String),
      XNXX.filterAux seen l = specDedupAux seen (l.filter (fun s => specKeep s.url))
  | [], seen => rfl
  | t :: r, seen => by
    rw [XNXX.filterAux]
    by_cases hk : specKeep t.url = true
    · have hk2 : XNXX.keepUrl t.url = true := hk
      rw [List.filter_cons_of_pos (by simpa using hk)]
      rw [specDedupAux]
      by_cases hs : seen.contains t.url = true
      · have hcond : ¬((!(seen.contains t.url) && XNXX.keepUrl t.url) = true) := by
          rw [hs]; simp
        rw [if_neg hcond, if_pos hs, XNXX.filterAux_eq_spec r seen]
      · have hs2 : seen.contains t.url = false := by
          simpa using hs
        have hcond : (!(seen.contains t.url) && XNXX.keepUrl t.url) = true := by
          rw [hs2, hk2]; rfl
        rw [if_pos hcond, if_neg hs, XNXX.filterAux_eq_spec r (t.url :: seen)]
    · have hk2 : XNXX.keepUrl t.url = false := by
        simpa using hk
      rw [List.filter_cons_of_neg (by simpa using hk)]
      have hcond : ¬((!(seen.contains t.url) && XNXX.keepUrl t.url) = true) := by
        rw [hk2]; simp
      rw [if_neg hcond, XNXX.filterAux_eq_spec r seen]

/-- The XNXX dedup/filter equals the spec-side keep-then-dedup. -/
theorem XNXX.filterSources_eq_spec (l : List Source) :
    XNXX.filterSources l = specFilter l :=
  XNXX.filterAux_eq_spec l []

/-! ## Properties of the xHamster extraction strategies -/

/-- A candidate produced by the method-1 body records the unescaped URL and
survived the thumbnail and preview/trailer exclusions. -/
theorem XHamster.process1_some (u lab : String) (s : Source)
    (h : XHamster.process1 u lab = some s) :
    s.url = xhUnescapeUrl u ∧ XHamster.previewMarked s.url = false ∧
      containsLower s.url "thumb" = false := by
  simp only [XHamster.process1] at h
  by_cases h1 : (xhUnescapeUrl u = "" ∨
      (!(containsLower (xhUnescapeUrl u) "mp4" || containsLower (xhUnescapeUrl u) "m3u8" ||
         containsLower (xhUnescapeUrl u) "video")) = true)
  · rw [if_pos h1] at h
    exact absurd h (by simp)
  · rw [if_neg h1] at h
    by_cases h2 : containsLower (xhUnescapeUrl u) "thumb" = true
    · rw [if_pos h2] at h
      exact absurd h (by simp)
    · rw [if_neg h2] at h
      by_cases h3 : XHamster.previewMarked (xhUnescapeUrl u) = true
      · rw [if_pos h3] at h
        exact absurd h (by simp)
      · rw [if_neg h3] at h
        injection h with h4
        subst h4
        exact ⟨rfl, by simpa using h3, by simpa using h2⟩

/-- A master-marked m3u8 candidate of the method-1 body is adaptive,
whatever label came with it and whatever resolution token its URL holds. -/
theorem XHamster.process1_master_adaptive (u lab : String) (s : Source)
    (h : XHamster.process1 u lab = some s) (hf : s.format = "m3u8")
    (hm : XHamster.hasMarker s.url = true) : s.quality = "adaptive" := by
  simp only [XHamster.process1] at h
  by_cases h1 : (xhUnescapeUrl u = "" ∨
      (!(containsLower (xhUnescapeUrl u) "mp4" || containsLower (xhUnescapeUrl u) "m3u8" ||
         containsLower (xhUnescapeUrl u) "video")) = true)
  · rw [if_pos h1] at h
    exact absurd h (by simp)
  · rw [if_neg h1] at h
    by_cases h2 : containsLower (xhUnescapeUrl u) "thumb" = true
    · rw [if_pos h2] at h
      exact absurd h (by simp)
    · rw [if_neg h2] at h
      by_cases h3 : XHamster.previewMarked (xhUnescapeUrl u) = true
      · rw [if_pos h3] at h
        exact absurd h (by simp)
      · rw [if_neg h3] at h
        injection h with h4
        subst h4
        dsimp only at hf hm ⊢
        rw [if_pos hf, if_pos hm]

/-- A master-marked m3u8 candidate of the method-2 body is adaptive,
whatever quality the player JSON supplied and whatever resolution token
its URL holds. -/
theorem XHamster.process2_master_adaptive (p : XHamster.PlayerSrc)
    (hf : (XHamster.process2 p).format = "m3u8")
    (hm : XHamster.hasMarker (XHamster.process2 p).url = true) :
    (XHamster.process2 p).quality = "adaptive" := by
  unfold XHamster.process2 at hf hm ⊢
  dsimp only at hf hm ⊢
  rw [if_pos hf, if_pos hm]

/-- Every candidate of xHamster method 1 is preview/trailer free. -/
theorem XHamster.method1_preview_free (html : String) (s : Source)
    (h : s ∈ XHamster.method1 html) : XHamster.previewMarked s.url = false := by
  unfold XHamster.method1 at h
  rcases List.mem_filterMap.1 h with ⟨caps, _, hc⟩
  match caps with
  | [] => exact absurd hc (by simp)
  | [_] => exact absurd hc (by simp)
  | [u, lab] => exact (XHamster.process1_some u lab s hc).2.1
  | _ :: _ :: _ :: _ => exact absurd hc (by simp)

/-- A candidate appended by the method-3 body is either an earlier one or
preview/trailer free. -/
theorem XHamster.add3_preview_free (acc : List Source) (u : String) (s : Source)
    (h : s ∈ XHamster.add3 acc u) :
    s ∈ acc ∨ XHamster.previewMarked s.url = false := by
  unfold XHamster.add3 at h
  split at h
  · split at h
    · exact Or.inl h
    · split at h
      · exact Or.inl h
      · split at h
        · exact Or.inl h
        · rename_i h1 h2 h3 h4
          rcases List.mem_append.1 h with h5 | h5
          · exact Or.inl h5
          · refine Or.inr ?_
            have h6 : s.url = u := by
              rcases List.mem_singleton.1 h5 with h7
              rw [h7]
            rw [h6]
            simpa using h4
  · exact Or.inl h

/-- A candidate appended by the method-4 body is either an earlier one or
preview/trailer free. -/
theorem XHamster.add4_preview_free (acc : List Source) (u : String) (s : Source)
    (h : s ∈ XHamster.add4 acc u) :
    s ∈ acc ∨ XHamster.previewMarked s.url = false := by
  unfold XHamster.add4 at h
  split at h
  · split at h
    · exact Or.inl h
    · split at h
      · exact Or.inl h
      · rename_i h1 h2 h3
        rcases List.mem_append.1 h with h5 | h5
        · exact Or.inl h5
        · refine Or.inr ?_
          have h6 : s.url = u := by
            rcases List.mem_singleton.1 h5 with h7
            rw [h7]
          rw [h6]
          simpa using h3
  · exact Or.inl h

/-- A candidate of xHamster method 3 is either an already collected one or
preview/trailer free. -/
theorem XHamster.method3_preview_free (html : String) (acc : List Source)
    (s : Source) (h : s ∈ XHamster.method3 html acc) :
    s ∈ acc ∨ XHamster.previewMarked s.url = false := by
  unfold XHamster.method3 at h
  generalize findAll XHamster.mp4_pattern html = ms at h
  induction ms generalizing acc with
  | nil => exact Or.inl h
  | cons c cs ih =>
    rw [List.foldl_cons] at h
    rcases ih _ h with h1 | h1
    · match c with
      | [] => exact Or.inl h1
      | u :: _ =>
        simpa using XHamster.add3_preview_free acc u s (by simpa using h1)
    · exact Or.inr h1

/-- A candidate of xHamster method 4 is either an already collected one or
preview/trailer free. -/
theorem XHamster.method4_preview_free (html : String) (acc : List Source)
    (s : Source) (h : s ∈ XHamster.method4 html acc) :
    s ∈ acc ∨ XHamster.previewMarked s.url = false := by
  unfold XHamster.method4 at h
  generalize findAll XHamster.hls_pattern html = ms at h
  induction ms generalizing acc with
  | nil => exact Or.inl h
  | cons c cs ih =>
    rw [List.foldl_cons] at h
    rcases ih _ h with h1 | h1
    · match c with
      | [] => exact Or.inl h1
      | u :: _ =>
        simpa using XHamster.add4_preview_free acc u s (by simpa using h1)
    · exact Or.inr h1

/-! ## Properties of the XNXX method-1 body -/

/-- A candidate produced by the method-1 body records the cleaned URL. -/
theorem XNXX.processJsMatch_url (m dq : String) (s : Source)
    (h : XNXX.processJsMatch m dq = some s) : s.url = XNXX.cleanUrl m := by
  simp only [XNXX.processJsMatch] at h
  split at h
  · injection h with h1
    subst h1
    rfl
  · exact absurd h (by simp)

/-- The cleaned URL of the method-1 body holds no backslash. -/
theorem XNXX.cleanUrl_no_bs (m : String) :
    ∀ c ∈ (XNXX.cleanUrl m).data, c ≠ bsc := by
  unfold XNXX.cleanUrl
  by_cases h : startsW (unescapeUrl m) "//" = true
  · rw [if_pos h]
    intro c hc
    rcases List.mem_append.1 hc with h1 | h1
    · have hh : ∀ d ∈ "https:".data, d ≠ bsc := by decide
      exact hh c h1
    · exact stripBsL_no_bs _ c h1
  · rw [if_neg h]
    exact stripBsL_no_bs _

/-- The cleaned URL of the method-1 body never remains protocol relative. -/
theorem XNXX.cleanUrl_not_protorel (m : String) :
    startsW (XNXX.cleanUrl m) "//" = false := by
  unfold XNXX.cleanUrl
  by_cases h : startsW (unescapeUrl m) "//" = true
  · rw [if_pos h]
    rfl
  · rw [if_neg h]
    simpa using h

/-- When URL metadata extraction infers no quality and the pattern's
default is not the Unknown marker, the candidate's quality is exactly that
default. -/
theorem XNXX.processJsMatch_default (m dq : String) (s : Source)
    (hdq : dq ≠ "Unknown") (h : XNXX.processJsMatch m dq = some s)
    (hq : (extract_metadata_from_url (XNXX.cleanUrl m)).quality = "") :
    s.quality = dq := by
  simp only [XNXX.processJsMatch] at h
  split at h
  · injection h with h1
    subst h1
    dsimp only
    rw [if_pos ⟨hq, hdq⟩]
  · exact absurd h (by simp)

/-! ## Properties of the XVideos extraction strategies -/

/-- When URL metadata extraction infers no quality, the XVideos candidate
builder records exactly the supplied default. -/
theorem XVideos.mkSource_no_token (u dq : String)
    (hq : (extract_metadata_from_url u).quality = "") :
    XVideos.mkSource u dq = ⟨u, dq, (extract_metadata_from_url u).format⟩ := by
  simp only [XVideos.mkSource, hq]
  simp

/-- A matched HLS setter URL without an inferable resolution token yields a
candidate with the adaptive default in the XVideos extraction. -/
theorem XVideos.hls_setter_default (html : String)
    (parseLd : String → Option String) (u : String) (rest : List String)
    (hfind : findFirst XVideos.hlsPat html = some (u :: rest)) (hne : u ≠ "")
    (hq : (extract_metadata_from_url u).quality = "") :
    (⟨u, "adaptive", (extract_metadata_from_url u).format⟩ : Source) ∈
      XVideos.extract_sources html parseLd := by
  have hmk := XVideos.mkSource_no_token u "adaptive" hq
  simp only [XVideos.extract_sources, hfind]
  rw [if_pos hne, hmk]
  repeat' split
  all_goals simp [List.mem_append]

/-- A matched Low setter URL without an inferable resolution token yields a
candidate with the 360p default in the XVideos extraction. -/
theorem XVideos.low_setter_default (html : String)
    (parseLd : String → Option String) (u : String) (rest : List String)
    (hfind : findFirst XVideos.lowPat html = some (u :: rest)) (hne : u ≠ "")
    (hq : (extract_metadata_from_url u).quality = "") :
    (⟨u, "360p", (extract_metadata_from_url u).format⟩ : Source) ∈
      XVideos.extract_sources html parseLd := by
  have hmk := XVideos.mkSource_no_token u "360p" hq
  simp only [XVideos.extract_sources, hfind]
  rw [if_pos hne, hmk]
  repeat' split
  all_goals simp [List.mem_append]

/-- A matched High setter URL without an inferable resolution token yields
a candidate with the 720p default in the XVideos extraction. -/
theorem XVideos.high_setter_default (html : String)
    (parseLd : String → Option String) (u : String) (rest : List String)
    (hfind : findFirst XVideos.highPat html = some (u :: rest)) (hne : u ≠ "")
    (hq : (extract_metadata_from_url u).quality = "") :
    (⟨u, "720p", (extract_metadata_from_url u).format⟩ : Source) ∈
      XVideos.extract_sources html parseLd := by
  have hmk := XVideos.mkSource_no_token u "720p" hq
  simp only [XVideos.extract_sources, hfind]
  rw [if_pos hne, hmk]
  repeat' split
  all_goals simp [List.mem_append]

/-! ## Concrete page texts used by the witnesses and counterexamples -/

/-- A single-quote string. -/
def sqs : String := String.mk [sqc]

/-- The scenario-D page text: one High setter call around an MP4 URL. -/
def scenario_d_html : String :=
  "html5player.setVideoUrlHigh(" ++ sqs ++ "https://cdn/v720.mp4" ++ sqs ++ ")"

/-- An xHamster-style JSON url/label pair whose escaped URL is protocol
relative. -/
def xh_escaped_html : String :=
  "\"url\":\"\\/\\/cdn\\/video-720p.mp4\",\"label\":\"720p\""

/-- A page text holding one raw master-playlist HLS URL with a resolution
token in its quality ladder. -/
def xh_master_html : String :=
  "x https://v.xhcdn.com/multi=256x144:144p/_tpl_.m3u8 x"

/-- The master HLS URL inside xh_master_html. -/
def xh_master_url : String :=
  "https://v.xhcdn.com/multi=256x144:144p/_tpl_.m3u8"

/-- An XVideos page text whose Low and High setters carry the same URL. -/
def xv_dup_html : String :=
  "html5player.setVideoUrlLow(" ++ sqs ++ "https://cdn/v.mp4" ++ sqs ++
    ") html5player.setVideoUrlHigh(" ++ sqs ++ "https://cdn/v.mp4" ++ sqs ++ ")"

/-- An XNXX page text carrying a preview-marked MP4 URL in a video_url
assignment. -/
def xnxx_preview_html : String :=
  "video_url = " ++ sqs ++ "https://cdn/preview.mp4" ++ sqs

end Area51

open Area51

/-! ## The claims -/

/-- C1: every failure path of each provider's resolve_url yields none and
no exception escapes to the caller.  The embedding of each resolver is a
total function into Option, which is the shallow form of never raising:
the try/except of the XNXX and XVideos resolvers and the branch structure
of the xHamster resolver route every failure to Python None.  A fetch
returning None or the empty page text, and an extraction whose filtered
candidate list is empty, each give none. -/
theorem c1_failure_paths_return_none (pageUrl : String)
    (jsonLdUrls : List String) (joinUrl : String → String → String)
    (elems : List XNXX.VElem) (ps : List XHamster.PlayerSrc)
    (isTemplate : String → Bool) (resolveTemplate : String → Option String)
    (parseLd : String → Option String)
    (selectBest : List Source → Option Source) :
    (∀ html : Option String, html = none ∨ html = some "" →
      XNXX.resolve_url pageUrl html jsonLdUrls joinUrl elems selectBest = none ∧
      XHamster.resolve_url pageUrl html ps isTemplate resolveTemplate selectBest = none ∧
      XVideos.resolve_url pageUrl html parseLd selectBest = none) ∧
    (∀ h, XNXX.filterSources (XNXX.method1 h ++ XNXX.method2 jsonLdUrls ++
        XNXX.method3 pageUrl joinUrl elems) = [] →
      XNXX.resolve_url pageUrl (some h) jsonLdUrls joinUrl elems selectBest = none) ∧
    (∀ h, XHamster.parse_html_for_sources h ps = none →
      XHamster.resolve_url pageUrl (some h) ps isTemplate resolveTemplate selectBest = none) ∧
    (∀ h, XVideos.extract_sources h parseLd = [] →
      XVideos.resolve_url pageUrl (some h) parseLd selectBest = none) := by
  refine ⟨?_, ?_, ?_, ?_⟩
  · rintro html (rfl | rfl)
    · exact ⟨rfl, rfl, rfl⟩
    · exact ⟨by simp [XNXX.resolve_url], by simp [XHamster.resolve_url],
             by simp [XVideos.resolve_url]⟩
  · intro h hf
    simp only [XNXX.resolve_url]
    by_cases hh : h = ""
    · rw [if_pos hh]
    · rw [if_neg hh, if_pos hf]
  · intro h hp
    simp only [XHamster.resolve_url]
    by_cases hh : h = ""
    · rw [if_pos hh]
    · rw [if_neg hh, hp]
  · intro h he
    simp only [XVideos.resolve_url]
    by_cases hh : h = ""
    · rw [if_pos hh]
    · rw [if_neg hh, if_pos he]

/-- C1 witness: concrete failure inputs for all three providers. -/
theorem c1_witness :
    XNXX.resolve_url "p" (some "") [] (fun _ s => s) [] (fun _ => none) = none ∧
    XHamster.resolve_url "p" none [] (fun _ => false) (fun _ => none)
      (fun _ => none) = none ∧
    XVideos.resolve_url "p" (some "nothing here") (fun _ => none)
      (fun _ => none) = none := by
  have h := c1_failure_paths_return_none "p" [] (fun _ s => s) [] []
    (fun _ => false) (fun _ => none) (fun _ => none) (fun _ => none)
  refine ⟨(h.1 (some "") (Or.inr rfl)).1, (h.1 none (Or.inl rfl)).2.1, ?_⟩
  exact h.2.2.2 "nothing here" (by decide)

/-- C2 counterexample: the XNXX dedup/filter keeps a preview-marked MP4
URL, and end to end such a URL reaches (and here is even chosen by) the
ranker, so the claimed exclusion fails for the XNXX provider. -/
theorem c2_counterexample :
    XNXX.filterSources [⟨"https://cdn/preview.mp4", "480p", "mp4"⟩] =
      [⟨"https://cdn/preview.mp4", "480p", "mp4"⟩] ∧
    containsLower "https://cdn/preview.mp4" "preview" = true ∧
    XNXX.resolve_url "page" (some xnxx_preview_html) [] (fun _ s => s) []
      (fun l => l.head?) = some ⟨"https://cdn/preview.mp4"⟩ := by
  exact ⟨by decide, by decide, by decide⟩

/-- C2 amended: only the xHamster extraction strategies exclude
preview/trailer/sample/promo-marked URLs (its regex methods 1, 3 and 4 do;
its method 2 and the XNXX and XVideos pipelines do not filter such URLs
out, as the counterexample shows). -/
theorem c2_amended_preview_exclusion :
    (∀ u lab s, XHamster.process1 u lab = some s →
      XHamster.previewMarked s.url = false) ∧
    (∀ html s, s ∈ XHamster.method1 html →
      XHamster.previewMarked s.url = false) ∧
    (∀ html acc s, s ∈ XHamster.method3 html acc →
      s ∈ acc ∨ XHamster.previewMarked s.url = false) ∧
    (∀ html acc s, s ∈ XHamster.method4 html acc →
      s ∈ acc ∨ XHamster.previewMarked s.url = false) :=
  ⟨fun u lab s h => (XHamster.process1_some u lab s h).2.1,
   XHamster.method1_preview_free,
   XHamster.method3_preview_free,
   XHamster.method4_preview_free⟩

/-- C2 witness: the xHamster method-1 candidate of the escaped page is
preview free. -/
theorem c2_witness : XHamster.previewMarked "//cdn/video-720p.mp4" = false :=
  c2_amended_preview_exclusion.2.1 xh_escaped_html
    ⟨"//cdn/video-720p.mp4", "720p", "mp4"⟩ (by decide)

/-- C3 counterexample: the XVideos candidate list handed to
select_best_source can hold the same URL twice (Low and High setter with
one URL), so the per-provider uniqueness claim fails for XVideos. -/
theorem c3_counterexample :
    XVideos.extract_sources xv_dup_html (fun _ => none) =
      [⟨"https://cdn/v.mp4", "360p", "mp4"⟩,
       ⟨"https://cdn/v.mp4", "720p", "mp4"⟩] ∧
    (XVideos.extract_sources xv_dup_html (fun _ => none)).map Source.url =
      ["https://cdn/v.mp4", "https://cdn/v.mp4"] := by
  exact ⟨by decide, by decide⟩

/-- C3 amended: the XNXX dedup/filter and the xHamster dedup guarantee
pairwise distinct URLs in the list handed to select_best_source, but the
XVideos extraction performs no such deduplication. -/
theorem c3_amended_unique_urls :
    (∀ l, (XNXX.filterSources l).Pairwise (fun a b => a.url ≠ b.url)) ∧
    (∀ l, (XHamster.dedup l).Pairwise (fun a b => a.url ≠ b.url)) ∧
    (∀ html ps l, XHamster.parse_html_for_sources html ps = some l →
      l.Pairwise (fun a b => a.url ≠ b.url)) := by
  refine ⟨XNXX.filterSources_pairwise, XHamster.dedup_pairwise, ?_⟩
  intro html ps l hp
  simp only [XHamster.parse_html_for_sources] at hp
  by_cases hh : html = ""
  · rw [if_pos hh] at hp
    injection hp with h1
    subst h1
    exact List.Pairwise.nil
  · rw [if_neg hh] at hp
    split at hp
    · exact absurd hp (by simp)
    · injection hp with h1
      subst h1
      exact XHamster.dedup_pairwise _

/-- C3 witness: the xHamster parse of the master page yields a
duplicate-free list. -/
theorem c3_witness :
    ([⟨xh_master_url, "144p", "m3u8"⟩] : List Source).Pairwise
      (fun a b => a.url ≠ b.url) :=
  c3_amended_unique_urls.2.2 xh_master_html [] _ (by decide)

/-- C4 counterexample: the xHamster method-1 strategy unescapes the JSON
escaping but records a protocol-relative URL without upgrading it to
https, so the claimed upgrade fails for that strategy. -/
theorem c4_counterexample :
    XHamster.parse_html_for_sources xh_escaped_html [] =
      some [⟨"//cdn/video-720p.mp4", "720p", "mp4"⟩] ∧
    startsW "//cdn/video-720p.mp4" "//" = true := by
  exact ⟨by decide, by decide⟩

/-- C4 amended: the XNXX inline-script strategy both unescapes (no
backslash survives) and upgrades protocol-relative URLs before recording a
candidate; the xHamster JSON strategy unescapes but records the URL as it
stands, protocol-relative or not. -/
theorem c4_amended_normalization :
    (∀ m dq s, XNXX.processJsMatch m dq = some s → s.url = XNXX.cleanUrl m) ∧
    (∀ m, ∀ c ∈ (XNXX.cleanUrl m).data, c ≠ bsc) ∧
    (∀ m, startsW (XNXX.cleanUrl m) "//" = false) ∧
    (∀ u lab s, XHamster.process1 u lab = some s → s.url = xhUnescapeUrl u) :=
  ⟨XNXX.processJsMatch_url, XNXX.cleanUrl_no_bs, XNXX.cleanUrl_not_protorel,
   fun u lab s h => (XHamster.process1_some u lab s h).1⟩

/-- C4 witness: the XNXX method-1 body records the cleaned URL of a
concrete match. -/
theorem c4_witness :
    Source.url ⟨"https://cdn/v1.mp4", "720p", "mp4"⟩ =
      XNXX.cleanUrl "https://cdn/v1.mp4" :=
  c4_amended_normalization.1 "https://cdn/v1.mp4" "720p"
    ⟨"https://cdn/v1.mp4", "720p", "mp4"⟩ (by decide)

/-- C5 counterexample: the xHamster raw HLS scan (method 4) records a
master-marked m3u8 URL with the resolution token 144p inferred from its
quality ladder instead of adaptive, so the claim fails for that strategy. -/
theorem c5_counterexample :
    XHamster.parse_html_for_sources xh_master_html [] =
      some [⟨xh_master_url, "144p", "m3u8"⟩] ∧
    XHamster.hasMarker xh_master_url = true ∧
    ("144p" : String) ≠ "adaptive" := by
  exact ⟨by decide, by decide, by decide⟩

/-- C5 amended: in the xHamster JSON strategies (methods 1 and 2) every
m3u8 candidate whose URL carries a master marker is recorded with quality
adaptive, regardless of any resolution token in the URL and of any
supplied label; the raw HLS scan (method 4) instead keeps a URL-inferred
resolution token and uses adaptive only as the fallback. -/
theorem c5_amended_master_adaptive :
    (∀ u lab s, XHamster.process1 u lab = some s → s.format = "m3u8" →
      XHamster.hasMarker s.url = true → s.quality = "adaptive") ∧
    (∀ p, (XHamster.process2 p).format = "m3u8" →
      XHamster.hasMarker (XHamster.process2 p).url = true →
      (XHamster.process2 p).quality = "adaptive") :=
  ⟨XHamster.process1_master_adaptive, XHamster.process2_master_adaptive⟩

/-- C5 witness: a concrete master-marked m3u8 candidate of method 1 is
adaptive. -/
theorem c5_witness :
    Source.quality ⟨xh_master_url, "adaptive", "m3u8"⟩ = "adaptive" :=
  c5_amended_master_adaptive.1 xh_master_url "720p"
    ⟨xh_master_url, "adaptive", "m3u8"⟩ (by decide) (by decide) (by decide)

/-- C6: the XNXX dedup/filter outputs exactly, in original order, the
first occurrence of each URL among the candidates whose URL starts with
the absolute http scheme and carries one of the media indicators .mp4,
.m3u8, video or stream (specFilter and specKeep are written from the
claim's words). -/
theorem c6_filter_characterization (l : List Source) :
    XNXX.filterSources l = specFilter l :=
  XNXX.filterSources_eq_spec l

/-- C7: the setter name fixes the default quality used when no resolution
token is inferable from the matched URL, in both providers with inline
player-setter strategies: in XNXX the pattern table pairs the Low setter
with 360p, the High setter with 720p and the HLS setter with adaptive and
the method-1 body applies that default exactly when extraction yields no
quality; in XVideos the HLS, Low and High setter matches contribute
candidates with the adaptive, 360p and 720p defaults respectively; and the
scenario-D page yields, in each provider, exactly the candidate of quality
720p and format mp4. -/
theorem c7_setter_default_quality :
    (∀ m dq s, dq ≠ "Unknown" → XNXX.processJsMatch m dq = some s →
      (extract_metadata_from_url (XNXX.cleanUrl m)).quality = "" →
      s.quality = dq) ∧
    XNXX.js_patterns.map Prod.snd =
      ["360p", "720p", "adaptive", "1080p", "720p", "480p", "360p", "240p",
       "Unknown", "Unknown", "Unknown", "Unknown", "adaptive", "adaptive"] ∧
    XNXX.method1 scenario_d_html = [⟨"https://cdn/v720.mp4", "720p", "mp4"⟩] ∧
    (∀ html parseLd u rest,
      findFirst XVideos.hlsPat html = some (u :: rest) → u ≠ "" →
      (extract_metadata_from_url u).quality = "" →
      (⟨u, "adaptive", (extract_metadata_from_url u).format⟩ : Source) ∈
        XVideos.extract_sources html parseLd) ∧
    (∀ html parseLd u rest,
      findFirst XVideos.lowPat html = some (u :: rest) → u ≠ "" →
      (extract_metadata_from_url u).quality = "" →
      (⟨u, "360p", (extract_metadata_from_url u).format⟩ : Source) ∈
        XVideos.extract_sources html parseLd) ∧
    (∀ html parseLd u rest,
      findFirst XVideos.highPat html = some (u :: rest) → u ≠ "" →
      (extract_metadata_from_url u).quality = "" →
      (⟨u, "720p", (extract_metadata_from_url u).format⟩ : Source) ∈
        XVideos.extract_sources html parseLd) ∧
    XVideos.extract_sources scenario_d_html (fun _ => none) =
      [⟨"https://cdn/v720.mp4", "720p", "mp4"⟩] := by
  refine ⟨?_, rfl, by decide, ?_, ?_, ?_, by decide⟩
  · intro m dq s hdq h hq
    exact XNXX.processJsMatch_default m dq s hdq h hq
  · intro html parseLd u rest hfind hne hq
    exact XVideos.hls_setter_default html parseLd u rest hfind hne hq
  · intro html parseLd u rest hfind hne hq
    exact XVideos.low_setter_default html parseLd u rest hfind hne hq
  · intro html parseLd u rest hfind hne hq
    exact XVideos.high_setter_default html parseLd u rest hfind hne hq

/-- C7 witness: the High default applies to a concrete tokenless URL in
the XNXX body, and the Low setter of a concrete XVideos page contributes
its 360p-default candidate. -/
theorem c7_witness :
    Source.quality ⟨"https://cdn/v1.mp4", "720p", "mp4"⟩ = "720p" ∧
    (⟨"https://cdn/v.mp4", "360p", "mp4"⟩ : Source) ∈
      XVideos.extract_sources xv_dup_html (fun _ => none) := by
  constructor
  · exact c7_setter_default_quality.1 "https://cdn/v1.mp4" "720p"
      ⟨"https://cdn/v1.mp4", "720p", "mp4"⟩ (by decide) (by decide) (by decide)
  · exact c7_setter_default_quality.2.2.2.2.1 xv_dup_html (fun _ => none)
      "https://cdn/v.mp4" [] (by decide) (by decide) (by decide)

/-- C8: both URL unescape transforms are idempotent: one application
already removes every backslash, so a second application changes
nothing. -/
theorem c8_unescape_idempotent (s : String) :
    unescapeUrl (unescapeUrl s) = unescapeUrl s ∧
    xhUnescapeUrl (xhUnescapeUrl s) = xhUnescapeUrl s :=
  ⟨unescapeUrl_fixed s, xhUnescapeUrl_fixed s⟩

/-- C9: in each provider, when the filtered candidate list is non-empty
but select_best_source returns none, resolve_url still returns a result
and its resolved_url is the original page URL (for xHamster, provided the
page URL is not itself template shaped, in which case the external
template resolver is consulted). -/
theorem c9_ranker_none_falls_back_to_page_url :
    (∀ pageUrl h jsonLdUrls joinUrl elems (sb : List Source → Option Source),
      h ≠ "" →
      XNXX.filterSources (XNXX.method1 h ++ XNXX.method2 jsonLdUrls ++
        XNXX.method3 pageUrl joinUrl elems) ≠ [] →
      sb (XNXX.filterSources (XNXX.method1 h ++ XNXX.method2 jsonLdUrls ++
        XNXX.method3 pageUrl joinUrl elems)) = none →
      XNXX.resolve_url pageUrl (some h) jsonLdUrls joinUrl elems sb =
        some ⟨pageUrl⟩) ∧
    (∀ pageUrl h ps isTemplate resolveTemplate
        (sb : List Source → Option Source) l,
      h ≠ "" → XHamster.parse_html_for_sources h ps = some l → l ≠ [] →
      sb l = none → isTemplate pageUrl = false →
      XHamster.resolve_url pageUrl (some h) ps isTemplate resolveTemplate sb =
        some ⟨pageUrl⟩) ∧
    (∀ pageUrl h parseLd (sb : List Source → Option Source),
      h ≠ "" → XVideos.extract_sources h parseLd ≠ [] →
      sb (XVideos.extract_sources h parseLd) = none →
      XVideos.resolve_url pageUrl (some h) parseLd sb = some ⟨pageUrl⟩) := by
  refine ⟨?_, ?_, ?_⟩
  · intro pageUrl h jsonLdUrls joinUrl elems sb hne hfne hsb
    simp only [XNXX.resolve_url]
    rw [if_neg hne, if_neg hfne, hsb]
  · intro pageUrl h ps isTemplate resolveTemplate sb l hne hp hlne hsb hT
    simp only [XHamster.resolve_url]
    rw [if_neg hne, hp]
    simp only
    rw [if_neg hlne, hsb]
    simp only
    rw [if_neg (by simp [hT])]
  · intro pageUrl h parseLd sb hne hene hsb
    simp only [XVideos.resolve_url]
    rw [if_neg hne, if_neg hene, hsb]

/-- C9 witness: concrete pages with candidates and a ranker constantly
none give back the page URL on all three providers. -/
theorem c9_witness :
    XNXX.resolve_url "P" (some scenario_d_html) [] (fun _ s => s) []
      (fun _ => none) = some ⟨"P"⟩ ∧
    XHamster.resolve_url "P" (some xh_master_html) [] (fun _ => false)
      (fun _ => none) (fun _ => none) = some ⟨"P"⟩ ∧
    XVideos.resolve_url "P" (some xv_dup_html) (fun _ => none)
      (fun _ => none) = some ⟨"P"⟩ := by
  refine ⟨?_, ?_, ?_⟩
  · exact c9_ranker_none_falls_back_to_page_url.1 "P" scenario_d_html []
      (fun _ s => s) [] (fun _ => none) (by decide) (by decide) rfl
  · exact c9_ranker_none_falls_back_to_page_url.2.1 "P" xh_master_html []
      (fun _ => false) (fun _ => none) (fun _ => none)
      [⟨xh_master_url, "144p", "m3u8"⟩] (by decide) (by decide) (by decide)
      rfl rfl
  · exact c9_ranker_none_falls_back_to_page_url.2.2 "P" xv_dup_html
      (fun _ => none) (fun _ => none) (by decide) (by decide) rfl

/-- C10 counterexample: on the empty page text, from which no sources are
extracted, xHamster's _parse_html_for_sources returns the empty list, not
Python None, so the claim fails on that input. -/
theorem c10_counterexample :
    XHamster.parse_html_for_sources "" [] = some ([] : List Source) := by
  decide

/-- C10 amended: for every non-empty page text, _parse_html_for_sources
returns None rather than an empty list when nothing is extracted, and any
list it returns is non-empty; only the empty page text short-circuits to
the empty list. -/
theorem c10_amended_none_or_nonempty :
    (∀ h ps l, h ≠ "" → XHamster.parse_html_for_sources h ps = some l →
      l ≠ []) ∧
    (∀ h ps, h ≠ "" →
      XHamster.method4 h (XHamster.method3 h
        (XHamster.method1 h ++ XHamster.method2 ps)) = [] →
      XHamster.parse_html_for_sources h ps = none) := by
  constructor
  · intro h ps l hne hp
    simp only [XHamster.parse_html_for_sources] at hp
    rw [if_neg hne] at hp
    split at hp
    · exact absurd hp (by simp)
    · rename_i h4ne
      injection hp with h1
      subst h1
      exact XHamster.dedup_ne_nil _ h4ne
  · intro h ps hne h4
    unfold XHamster.parse_html_for_sources
    rw [if_neg hne, if_pos h4]

/-- C10 witness: the parse of a concrete non-empty page returns a
non-empty list. -/
theorem c10_witness : ([⟨xh_master_url, "144p", "m3u8"⟩] : List Source) ≠ [] :=
  c10_amended_none_or_nonempty.1 xh_master_html [] _ (by decide) (by decide)
